import Mathlib

/-!
Verification of the cinema-scraper repository (scrape.py, scrape_server.py).

Shallow embedding conventions:
- Python strings are Lean `String`s; character classes of the Python regexes
  (`\w`, `\d`, `[0-9A-Za-z\-]`) are embedded over their ASCII core
  (`Char.isAlphanum`, `Char.isDigit`); the DOM/HTML parser is consumed as a
  capability, so the results of BeautifulSoup queries (anchor lists, a chosen
  anchor's container spans, an element's ancestor date attribute) appear as
  fields of page-model structures.
- `re.sub(pattern+, rep, s)` for a character-class pattern is embedded as
  `collapseRuns`, which replaces each maximal run of matching characters by a
  single replacement character.
- Python `or` on strings/None (falsy = None or "") is written out explicitly
  at each use site.
-/

/-! ## String machinery shared by both source files -/

/-- Characters kept by the `[^0-9A-Za-z\-]+` substitution in
`sanitize_for_filename` (scrape.py line 32 / scrape_server.py line 32). -/
def allowedChar (c : Char) : Bool :=
  (('0' ≤ c && c ≤ '9') || ('A' ≤ c && c ≤ 'Z') || ('a' ≤ c && c ≤ 'z') || c == '-')

/-- `re.sub(bad+, rep, ·)` over a character class: each maximal run of
characters satisfying `bad` becomes the single character `rep`.  The flag
records whether we are inside a run that has already emitted its `rep`. -/
def collapseRuns (bad : Char → Bool) (rep : Char) : Bool → List Char → List Char
  | _, [] => []
  | inRun, c :: cs =>
    if bad c then
      (if inRun then collapseRuns bad rep true cs else rep :: collapseRuns bad rep true cs)
    else c :: collapseRuns bad rep false cs

/-- Python `str.strip(ch)`: drop the character `ch` from both ends. -/
def stripChar (ch : Char) (cs : List Char) : List Char :=
  ((cs.dropWhile (fun c => c == ch)).reverse.dropWhile (fun c => c == ch)).reverse

/-- scrape.py lines 28-34: `sanitize_for_filename`.  Empty input maps to
"unknown"; otherwise `re.sub(r"[^0-9A-Za-z\-]+", "_", s)`, then
`re.sub(r"_+", "_", ·)`, then `.strip("_")`. -/
def sanitize_for_filename (s : String) : String :=
  if s = "" then "unknown"
  else
    String.mk (stripChar '_'
      (collapseRuns (fun c => c == '_') '_' false
        (collapseRuns (fun c => !allowedChar c) '_' false s.data)))

namespace ScrapeServer

/-- scrape_server.py lines 28-34: the gateway's own copy of
`sanitize_for_filename`, with the same two regex substitutions and strip. -/
def sanitize_for_filename (s : String) : String :=
  if s = "" then "unknown"
  else
    String.mk (stripChar '_'
      (collapseRuns (fun c => c == '_') '_' false
        (collapseRuns (fun c => !allowedChar c) '_' false s.data)))

end ScrapeServer

/-- Modelled from the spec: "replace every run of characters outside
`[0-9A-Za-z-]` with a single underscore, trim leading/trailing underscores;
empty input maps to the literal `unknown`" — a single substitution pass plus
the trim, with no second `_+` collapsing pass. -/
def sanitizeFilenameSpec (s : String) : String :=
  if s = "" then "unknown"
  else
    String.mk (stripChar '_'
      (collapseRuns (fun c => !allowedChar c) '_' false s.data))

/-! ### Facts about `collapseRuns` and `stripChar` -/

/-! ## Text normalization and substring matching (scrape.py lines 218-221) -/

/-- ASCII core of the `\w` character class used by `re.sub(r"\W+", " ", ...)`
and by the `\b` boundary of the bare-hour regex. -/
def isWordChar (c : Char) : Bool := c.isAlphanum || c == '_'

/-- scrape.py lines 218-221: `normalize_text` — empty stays empty, otherwise
collapse each `\W+` run to a single space, strip, lowercase. -/
def normalize_text (s : String) : String :=
  if s = "" then ""
  else String.mk ((stripChar ' '
    (collapseRuns (fun c => !isWordChar c) ' ' false s.data)).map Char.toLower)

/-- Contiguous-sublist check over character lists. -/
def infixCheck (needle : List Char) : List Char → Bool
  | [] => needle.isEmpty
  | c :: cs => List.isPrefixOf needle (c :: cs) || infixCheck needle cs

/-- Python `needle in hay` on strings: contiguous substring. -/
def substrOf (needle hay : String) : Bool := infixCheck needle.data hay.data

/-! ## Time and date regexes of `parse_cinema_showtimes` -/

def isTimeSep (c : Char) : Bool := c == 'h' || c == 'H' || c == ':'

def digitVal (c : Char) : Nat := c.toNat - 48

/-- One attempt of `(\d{1,2})[hH:](\d{2})` at a fixed position, with the
greedy two-digit hour tried first (Python backtracking order). -/
def matchHMAt (cs : List Char) : Option (Nat × String) :=
  match cs with
  | c1 :: c2 :: c3 :: c4 :: c5 :: _ =>
    if c1.isDigit && c2.isDigit && isTimeSep c3 && c4.isDigit && c5.isDigit then
      some (digitVal c1 * 10 + digitVal c2, String.mk [c4, c5])
    else if c1.isDigit && isTimeSep c2 && c3.isDigit && c4.isDigit then
      some (digitVal c1, String.mk [c3, c4])
    else none
  | c1 :: c2 :: c3 :: c4 :: [] =>
    if c1.isDigit && isTimeSep c2 && c3.isDigit && c4.isDigit then
      some (digitVal c1, String.mk [c3, c4])
    else none
  | _ => none

/-- `re.search(r"(\d{1,2})[hH:](\d{2})", ·)`: leftmost match wins. -/
def searchHM : List Char → Option (Nat × String)
  | [] => none
  | c :: cs =>
    match matchHMAt (c :: cs) with
    | some r => some r
    | none => searchHM cs

/-- `\b` after a word character: end of string or a non-word character next. -/
def atWordBoundary : List Char → Bool
  | [] => true
  | c :: _ => !isWordChar c

/-- One attempt of `(\d{1,2})[hH]\b` at a fixed position (two-digit hour
tried first). -/
def matchHBareAt (cs : List Char) : Option Nat :=
  match cs with
  | c1 :: c2 :: c3 :: rest =>
    if c1.isDigit && c2.isDigit && (c3 == 'h' || c3 == 'H') && atWordBoundary rest then
      some (digitVal c1 * 10 + digitVal c2)
    else if c1.isDigit && (c2 == 'h' || c2 == 'H') && atWordBoundary (c3 :: rest) then
      some (digitVal c1)
    else none
  | c1 :: c2 :: [] =>
    if c1.isDigit && (c2 == 'h' || c2 == 'H') then some (digitVal c1) else none
  | _ => none

/-- `re.search(r"(\d{1,2})[hH]\b", ·)`: leftmost match wins. -/
def searchHBare : List Char → Option Nat
  | [] => none
  | c :: cs =>
    match matchHBareAt (c :: cs) with
    | some r => some r
    | none => searchHBare cs

/-- Python `f"{hh:02d}"` for `hh ≤ 99`. -/
def pad2 (n : Nat) : String := if n < 10 then "0" ++ toString n else toString n

/-- The `shwt_date=(\d{4}-\d{2}-\d{2})` pattern body (the ten characters
after `shwt_date=`). -/
def matchDateDigits (cs : List Char) : Option String :=
  match cs with
  | a :: b :: c :: d :: e :: f :: g :: h :: i :: j :: _ =>
    if a.isDigit && b.isDigit && c.isDigit && d.isDigit && e == '-' &&
        f.isDigit && g.isDigit && h == '-' && i.isDigit && j.isDigit then
      some (String.mk [a, b, c, d, e, f, g, h, i, j])
    else none
  | _ => none

/-- `re.search(r"shwt_date=(\d{4}-\d{2}-\d{2})", ·)` (scrape.py lines 38,
313): leftmost occurrence of the literal marker followed by a date. -/
def searchShwtDate : List Char → Option String
  | [] => none
  | c :: cs =>
    if List.isPrefixOf ("shwt_date=".data) (c :: cs) then
      match matchDateDigits ((c :: cs).drop 10) with
      | some d => some d
      | none => searchShwtDate cs
    else searchShwtDate cs

/-- `urlparse(url).fragment`: everything after the first `#` (empty when
there is no `#`). -/
def urlFragment (url : String) : String :=
  match url.data.dropWhile (fun c => !(c == '#')) with
  | [] => ""
  | _ :: rest => String.mk rest

/-- scrape.py lines 309-315: date fallback from the page URL's fragment. -/
def fragDate (pageUrl : String) : Option String :=
  searchShwtDate (urlFragment pageUrl).data

/-! ## Page model for `parse_cinema_showtimes` (scrape.py lines 223-328)

The HTML parser is an external capability, so the results of its queries are
fields: `containerSpans` holds the time-bearing elements found inside the
anchor's container (line 264), `widenedSpans` those of the 4-level ancestor
walk (lines 267-276), and `ancestorDate` the value of the first
`data-showtime-date` attribute on the walk from the element up to (but
excluding) the container (lines 302-308). -/

structure TimeEl where
  text : String
  dataTime : Option String
  ancestorDate : Option String
deriving Repr, DecidableEq

structure Anchor where
  href : String
  text : String
  titleAttr : Option String
  parentText : String
  containerSpans : List TimeEl
  widenedSpans : List TimeEl
deriving Repr, DecidableEq

structure Page where
  anchors : List Anchor
deriving Repr, DecidableEq

structure Slot where
  date : Option String
  time : String
  text : String
deriving Repr, DecidableEq

structure ShowtimeResult where
  found : Bool
  film : String
  reason : Option String
  count : Nat
  showtimes : List Slot
  sourceUrl : Option String
deriving Repr, DecidableEq

/-- scrape.py lines 234-240: an anchor is a first-pass candidate when the
normalized target is a substring of its normalized visible text, or of its
normalized `title` attribute. -/
def anchorTextMatch (target : String) (a : Anchor) : Bool :=
  ((target != "") && substrOf target (normalize_text a.text)) ||
  (match a.titleAttr with
   | some t => (target != "") && substrOf target (normalize_text t)
   | none => false)

/-- scrape.py line 245: `re.search(r"/film(/|$)|fichefilm_gen_cfilm|film-", href)`
(`$` in Python also matches just before a trailing newline). -/
def hrefFilmMatch (h : String) : Bool :=
  substrOf "/film/" h || String.endsWith h "/film" || String.endsWith h "/film\n" ||
  substrOf "fichefilm_gen_cfilm" h || substrOf "film-" h

/-- scrape.py lines 244-248: second-pass candidate — film-like href and the
anchor's parent's normalized text contains the normalized target. -/
def anchorParentMatch (target : String) (a : Anchor) : Bool :=
  hrefFilmMatch a.href && (target != "") && substrOf target (normalize_text a.parentText)

/-- scrape.py lines 281-300: the per-element time fallback chain.  Visible
text is preferred; `H(h|H|:)MM` → zero-padded `HH:MM`; else `H h` with a word
boundary → `HH:00`; else the raw text; with no visible text,
`data-showtime-time` (Python `or`, so an empty attribute falls through to the
empty visible text). -/
def timeVal (el : TimeEl) : String :=
  if el.text ≠ "" then
    match searchHM el.text.data with
    | some (hh, mm) => pad2 hh ++ ":" ++ mm
    | none =>
      match searchHBare el.text.data with
      | some hh => pad2 hh ++ ":00"
      | none => el.text
  else
    match el.dataTime with
    | some t => if t ≠ "" then t else el.text
    | none => el.text

/-- scrape.py lines 301-317: build one slot from a time-bearing element; the
date comes from the first `data-showtime-date` on the ancestor walk (an empty
attribute value is falsy and falls through), else from the URL fragment. -/
def mkSlot (pageUrl : String) (el : TimeEl) : Slot :=
  { date :=
      match el.ancestorDate with
      | some d => if d ≠ "" then some d else fragDate pageUrl
      | none => fragDate pageUrl
    time := timeVal el
    text := el.text }

/-- Python `str(optional_date)`: `None` prints as "None". -/
def pyStrOpt : Option String → String
  | none => "None"
  | some s => s

/-- scrape.py line 323: the dedup key `f"{st.get('date')}_{st.get('time')}"`. -/
def slotKey (s : Slot) : String := pyStrOpt s.date ++ "_" ++ s.time

/-- scrape.py lines 319-327: keep the first slot for each key, tracking seen
keys. -/
def dedupBy (seen : List String) : List Slot → List Slot
  | [] => []
  | st :: rest =>
    if slotKey st ∈ seen then dedupBy seen rest
    else st :: dedupBy (slotKey st :: seen) rest

def dedupSlots (slots : List Slot) : List Slot := dedupBy [] slots

/-- scrape.py line 251: the not-found dictionary. -/
def notFoundResult (film : String) : ShowtimeResult :=
  { found := false, film := film, reason := some "film not found on page",
    count := 0, showtimes := [], sourceUrl := none }

/-- scrape.py lines 232-248: first-pass candidates by text/title match; when
none, second pass over film-like hrefs with a parent-text match. -/
def chooseCandidates (page : Page) (target : String) : List Anchor :=
  let cands1 := page.anchors.filter (anchorTextMatch target)
  if cands1.isEmpty then page.anchors.filter (anchorParentMatch target) else cands1

/-- scrape.py lines 263-276: the chosen anchor's time-bearing elements — the
container's spans, or the 4-level widened ancestor walk when the container
yields none. -/
def spansOf (a : Anchor) : List TimeEl :=
  if a.containerSpans.isEmpty then a.widenedSpans else a.containerSpans

/-- scrape.py lines 223-328: `parse_cinema_showtimes`.  No candidate yields
the not-found result; otherwise the first candidate's time-bearing elements
become slots, which are deduplicated. -/
def parse_cinema_showtimes (page : Page) (filmTitle pageUrl : String) : ShowtimeResult :=
  match chooseCandidates page (normalize_text filmTitle) with
  | [] => notFoundResult filmTitle
  | a :: _ =>
    let uniq := dedupSlots ((spansOf a).map (mkSlot pageUrl))
    { found := true, film := filmTitle, reason := none,
      count := uniq.length, showtimes := uniq, sourceUrl := some pageUrl }

/-! ## Claim C6: sanitize_for_filename -/

/-! ## Claim C10: the two copies of sanitize_for_filename agree -/

/-! ## Claim C1: the not-found condition of parse_cinema_showtimes -/

/-- An anchor whose own text and title do not mention the film, but whose
href looks like a film link and whose parent's text does mention it. -/
def c1Anchor : Anchor :=
  { href := "/film/seance-1", text := "zz", titleAttr := none,
    parentText := "Titanic zz", containerSpans := [], widenedSpans := [] }

def c1Page : Page := { anchors := [c1Anchor] }

def c1wAnchor : Anchor :=
  { href := "/x", text := "other film", titleAttr := none,
    parentText := "nothing here", containerSpans := [], widenedSpans := [] }

def c1wPage : Page := { anchors := [c1wAnchor] }

/-! ## Claims C2 and C3: the per-element time parsing -/

def c2Anchor : Anchor :=
  { href := "/seance/x", text := "Mon Film", titleAttr := none, parentText := "",
    containerSpans :=
      [{ text := "20h30", dataTime := none, ancestorDate := none },
       { text := "20h", dataTime := none, ancestorDate := none },
       { text := "Séance spéciale", dataTime := none, ancestorDate := none }],
    widenedSpans := [] }

def c2Page : Page := { anchors := [c2Anchor] }

def c3Anchor : Anchor :=
  { href := "/seance/x", text := "Mon Film", titleAttr := none, parentText := "",
    containerSpans := [{ text := "", dataTime := none, ancestorDate := none }],
    widenedSpans := [] }

def c3Page : Page := { anchors := [c3Anchor] }

/-! ## Claim C4: deduplication of showtime slots -/

/-! ## Claim C5: the pagination crawler (scrape.py lines 449-477) -/

/-- One observable action of the crawl loop.  The fixed courtesy delay
`time.sleep(0.6)` is recorded in tenths of a second to stay in `Nat`. -/
inductive CrawlEvent where
  | sleep (tenths : Nat)
  | request (page : Nat)
deriving Repr, DecidableEq

def isRequestEv : CrawlEvent → Bool
  | .request _ => true
  | .sleep _ => false

/-- scrape.py lines 452-460: `max_page = max(pages)` when any `page=` number
was collected, else 1. -/
def detectMaxPage (pageNums : List Nat) : Nat :=
  match pageNums with
  | [] => 1
  | p :: ps => ps.foldl max p

/-- scrape.py lines 465-477: the body of `for p in range(2, limit + 1)` —
sleep 0.6s, fetch the page (`none` models a raised RequestException, whose
handler just `continue`s), append the extracted cards on success. -/
def crawlLoop {α : Type} (fetch : Nat → Option (List α)) :
    List Nat → List α → List α × List CrawlEvent
  | [], films => (films, [])
  | p :: ps, films =>
    match fetch p with
    | none =>
      let r := crawlLoop fetch ps films
      (r.1, CrawlEvent.sleep 6 :: CrawlEvent.request p :: r.2)
    | some cards =>
      let r := crawlLoop fetch ps (films ++ cards)
      (r.1, CrawlEvent.sleep 6 :: CrawlEvent.request p :: r.2)

/-- scrape.py lines 462-477: when pagination was detected
(`max_page > 1`), crawl pages `2 .. min(maxPage, 30)`. -/
def crawl {α : Type} (fetch : Nat → Option (List α)) (maxPage : Nat) (films0 : List α) :
    List α × List CrawlEvent :=
  if maxPage > 1 then crawlLoop fetch (List.range' 2 (min maxPage 30 - 1)) films0
  else (films0, [])

/-! ## Claim C7: the gateway's parameter validation (scrape_server.py 38-50) -/

structure ApiResponse where
  status : Nat
  body : String
deriving Repr, DecidableEq

/-- `json.dumps({'error': 'url and film parameters required'})`. -/
def requiredParamsBody : String :=
  "\x7b\"error\": \"url and film parameters required\"\x7d"

/-- Python truthiness of an optional query-parameter value (missing or empty
string is falsy). -/
def pyTruthy : Option String → Bool
  | none => false
  | some s => s != ""

/-- scrape_server.py lines 41-50: `/api/scrape` validation — `if not url or
not film`, answer 400 with the fixed JSON body and do no pipeline work
(`runPipeline` stands for lines 52-115); the Bool records whether the
pipeline was started. -/
def handleApiScrape (url film : Option String) (runPipeline : Unit → ApiResponse) :
    ApiResponse × Bool :=
  if !pyTruthy url || !pyTruthy film then
    ({ status := 400, body := requiredParamsBody }, false)
  else (runPipeline (), true)

/-! ## Claim C8: salle-name resolution (scrape.py lines 134-161) -/

/-- DOM-capability view of the queries in `extract_salle_name`: the first
`<h1>`'s stripped text, the first "titlebar-title"-classed element's text,
and the text of the first div/span whose non-empty lowercased text contains
"cin" or "salle". -/
structure SallePage where
  h1Text : Option String
  titlebarText : Option String
  cinSalleText : Option String
deriving Repr, DecidableEq

/-- scrape.py lines 144-157: the titlebar element's non-empty text, else the
"cin"/"salle" candidate. -/
def salleTitlebarOrCin (p : SallePage) : Option String :=
  match p.titlebarText with
  | some t => if t ≠ "" then some t else p.cinSalleText
  | none => p.cinSalleText

/-- scrape.py lines 134-157: `extract_salle_name` — the first `<h1>` with
non-empty text longer than 3 characters, else the titlebar/cin-salle chain. -/
def extract_salle_name (p : SallePage) : Option String :=
  match p.h1Text with
  | some t => if t ≠ "" ∧ 3 < t.length then some t else salleTitlebarOrCin p
  | none => salleTitlebarOrCin p

/-- Python `s.split(ch)` grouping over characters. -/
def splitOnChar (ch : Char) : List Char → List (List Char)
  | [] => [[]]
  | c :: cs =>
    let r := splitOnChar ch cs
    if c == ch then [] :: r
    else
      match r with
      | [] => [[c]]
      | g :: gs => (c :: g) :: gs

/-- scrape.py line 160's URL fallback: `urlparse(url).path.split('=')[-1]` —
the part of the path after its last `=`, or the whole path when it has none. -/
def lastEqSegment (path : String) : String :=
  String.mk ((splitOnChar '=' path.data).getLastD [])

/-- Modelled from the spec: "last path segment of the URL" — the part of the
URL path after its last `/`. -/
def lastPathSegmentSpec (path : String) : String :=
  String.mk ((splitOnChar '/' path.data).getLastD [])

/-- scrape.py lines 159-160 minus the override:
`extract_salle_name(soup) or path.split('=')[-1]`. -/
def salleOrPath (p : SallePage) (path : String) : String :=
  match extract_salle_name p with
  | some t => if t ≠ "" then t else lastEqSegment path
  | none => lastEqSegment path

/-- scrape.py line 160: `args.salle_name or extract_salle_name(soup) or
urlparse(url).path.split('=')[-1]`. -/
def resolveSalleName (override : Option String) (p : SallePage) (path : String) : String :=
  match override with
  | some s => if s ≠ "" then s else salleOrPath p path
  | none => salleOrPath p path

def c8Page : SallePage := { h1Text := none, titlebarText := none, cinSalleText := none }

/-! ## Claim C9: artifacts of a run (scrape.py main, lines 119-532) -/

inductive Artifact where
  | html
  | pageJson
  | allJson
  | filmJson
  | requestError
deriving Repr, DecidableEq

/-- The artifact writes of `main` in order: a failed fetch writes only
`request_error.txt` and exits (lines 122-128); a successful fetch writes the
HTML snapshot (line 173), then the per-film JSON when `--film` was given
(lines 330-360), then — only when at least one film card was collected —
the `_all.json` list and the structured page JSON (lines 479-532). -/
def runArtifacts (fetchOk filmGiven filmsNonempty : Bool) : List Artifact :=
  if !fetchOk then [Artifact.requestError]
  else
    [Artifact.html] ++ (if filmGiven then [Artifact.filmJson] else []) ++
      (if filmsNonempty then [Artifact.allJson, Artifact.pageJson] else [])

/-! ## Theorems -/

theorem allowedChar_ne_underscore {c : Char} (h : allowedChar c = true) : (c == '_') = false := by
  by_contra hne
  have hc : c = '_' := by
    cases hcc : (c == '_') with
    | false => exact absurd hcc hne
    | true => exact eq_of_beq hcc
  subst hc
  simp [allowedChar] at h

theorem collapse_underscores_id (cs : List Char) : ∀ flag,
    collapseRuns (fun c => c == '_') '_' flag
      (collapseRuns (fun c => !allowedChar c) '_' flag cs)
      = collapseRuns (fun c => !allowedChar c) '_' flag cs := by
  induction cs with
  | nil => intro flag; rfl
  | cons c cs ih =>
    intro flag
    by_cases hc : allowedChar c = true
    · simp [collapseRuns, hc, allowedChar_ne_underscore hc, ih false]
    · replace hc : allowedChar c = false := by
        cases h : allowedChar c
        · rfl
        · exact absurd h hc
      cases flag with
      | false =>
        simp [collapseRuns, hc, ih true]
      | true =>
        simp [collapseRuns, hc, ih true]

theorem mem_collapseRuns {bad : Char → Bool} {rep : Char} {flag : Bool} {cs : List Char}
    {x : Char} (h : x ∈ collapseRuns bad rep flag cs) :
    x = rep ∨ (x ∈ cs ∧ bad x = false) := by
  induction cs generalizing flag with
  | nil => simp [collapseRuns] at h
  | cons c cs ih =>
    by_cases hb : bad c = true
    · cases flag with
      | true =>
        simp only [collapseRuns, hb, if_pos rfl] at h
        rcases ih h with h1 | h2
        · exact Or.inl h1
        · exact Or.inr ⟨List.mem_cons_of_mem _ h2.1, h2.2⟩
      | false =>
        simp only [collapseRuns, hb, if_pos rfl] at h
        rcases List.mem_cons.mp h with h1 | h1
        · exact Or.inl h1
        · rcases ih h1 with h2 | h3
          · exact Or.inl h2
          · exact Or.inr ⟨List.mem_cons_of_mem _ h3.1, h3.2⟩
    · replace hb : bad c = false := by
        cases hbb : bad c
        · rfl
        · exact absurd hbb hb
      simp only [collapseRuns, hb] at h
      rcases List.mem_cons.mp h with h1 | h1
      · subst h1; exact Or.inr ⟨List.mem_cons_self _ _, hb⟩
      · rcases ih h1 with h2 | h3
        · exact Or.inl h2
        · exact Or.inr ⟨List.mem_cons_of_mem _ h3.1, h3.2⟩

theorem mem_of_mem_dropWhile {p : Char → Bool} {l : List Char} {x : Char}
    (h : x ∈ l.dropWhile p) : x ∈ l := by
  induction l with
  | nil => simp at h
  | cons c cs ih =>
    by_cases hc : p c = true
    · rw [List.dropWhile_cons_of_pos hc] at h
      exact List.mem_cons_of_mem _ (ih h)
    · rw [List.dropWhile_cons_of_neg (by simp [hc])] at h
      exact h

theorem mem_of_mem_stripChar {ch : Char} {cs : List Char} {x : Char}
    (h : x ∈ stripChar ch cs) : x ∈ cs := by
  unfold stripChar at h
  rw [List.mem_reverse] at h
  have h2 := mem_of_mem_dropWhile h
  rw [List.mem_reverse] at h2
  exact mem_of_mem_dropWhile h2

/-- C6: `sanitize_for_filename` replaces each maximal run of characters
outside `[0-9A-Za-z-]` by a single underscore and trims leading/trailing
underscores (the code's extra `_+` collapsing pass changes nothing), maps the
empty input to "unknown", and every output character lies in `[0-9A-Za-z_-]`. -/
theorem C6_sanitize_runs_trim_charset (s : String) :
    sanitize_for_filename s = sanitizeFilenameSpec s ∧
    sanitize_for_filename "" = "unknown" ∧
    (∀ c, c ∈ (sanitize_for_filename s).data → (allowedChar c || c == '_') = true) := by
  refine ⟨?_, rfl, ?_⟩
  · unfold sanitize_for_filename sanitizeFilenameSpec
    by_cases hs : s = ""
    · simp [hs]
    · simp [hs, collapse_underscores_id]
  · intro c hc
    by_cases hs : s = ""
    · subst hs
      have he : sanitize_for_filename "" = "unknown" := rfl
      rw [he] at hc
      fin_cases hc <;> decide
    · unfold sanitize_for_filename at hc
      rw [if_neg hs] at hc
      have hc2 : c ∈ stripChar '_'
          (collapseRuns (fun c => c == '_') '_' false
            (collapseRuns (fun c => !allowedChar c) '_' false s.data)) := hc
      have hc3 := mem_of_mem_stripChar hc2
      rcases mem_collapseRuns hc3 with h | h
      · subst h; decide
      · rcases mem_collapseRuns h.1 with h2 | h2
        · subst h2; decide
        · have : allowedChar c = true := by
            cases hac : allowedChar c
            · exfalso
              rw [hac] at h2
              simp at h2
            · rfl
          simp [this]

/-- Witness for C6 at the concrete input "Cine Club!". -/
theorem C6_sanitize_runs_trim_charset_witness :
    sanitize_for_filename "Cine Club!" = sanitizeFilenameSpec "Cine Club!" ∧
    (allowedChar 'C' || 'C' == '_') = true :=
  ⟨(C6_sanitize_runs_trim_charset "Cine Club!").1,
   (C6_sanitize_runs_trim_charset "Cine Club!").2.2 'C' (by decide)⟩

/-- C10: the sanitizer defined in scrape.py and the copy in scrape_server.py
compute the same function, so the gateway locates per-film artifacts under
exactly the name the pipeline used to write them. -/
theorem C10_sanitize_copies_agree (s : String) :
    ScrapeServer.sanitize_for_filename s = sanitize_for_filename s := rfl

/-- C1 counterexample: on `c1Page` no anchor's normalized text or title
contains normalized "Titanic", yet the matcher's second pass (film-like href
plus parent-text match, scrape.py lines 243-248) still finds the film, so the
claimed `found = false` outcome does not occur. -/
theorem C1_counterexample :
    c1Page.anchors = [c1Anchor] ∧
    substrOf (normalize_text "Titanic") (normalize_text c1Anchor.text) = false ∧
    c1Anchor.titleAttr = none ∧
    (parse_cinema_showtimes c1Page "Titanic" "https://ex.fr/salle").found = true ∧
    (parse_cinema_showtimes c1Page "Titanic" "https://ex.fr/salle").reason ≠
      some "film not found on page" := by
  decide

/-- C1 (amended): if no anchor's normalized text or normalized title contains
the normalized title, and additionally no anchor with a film-like href has a
parent whose normalized text contains it, then `parse_cinema_showtimes`
returns `found = false` with reason "film not found on page". -/
theorem C1_not_found_when_no_candidate (page : Page) (film url : String)
    (h1 : ∀ a ∈ page.anchors, substrOf (normalize_text film) (normalize_text a.text) = false)
    (h2 : ∀ a ∈ page.anchors, ∀ t, a.titleAttr = some t →
      substrOf (normalize_text film) (normalize_text t) = false)
    (h3 : ∀ a ∈ page.anchors, hrefFilmMatch a.href = true →
      substrOf (normalize_text film) (normalize_text a.parentText) = false) :
    parse_cinema_showtimes page film url = notFoundResult film := by
  have e1 : page.anchors.filter (anchorTextMatch (normalize_text film)) = [] := by
    rw [List.filter_eq_nil_iff]
    intro a ha
    unfold anchorTextMatch
    cases hta : a.titleAttr with
    | none => simp [h1 a ha]
    | some t => simp [h1 a ha, h2 a ha t hta]
  have e2 : page.anchors.filter (anchorParentMatch (normalize_text film)) = [] := by
    rw [List.filter_eq_nil_iff]
    intro a ha
    unfold anchorParentMatch
    by_cases hh : hrefFilmMatch a.href = true
    · simp [hh, h3 a ha hh]
    · simp [hh]
  simp [parse_cinema_showtimes, chooseCandidates, e1, e2]

/-- Witness for the amended C1 on a concrete page with one unrelated anchor. -/
theorem C1_not_found_when_no_candidate_witness :
    parse_cinema_showtimes c1wPage "Titanic" "https://ex.fr/salle" =
      notFoundResult "Titanic" :=
  C1_not_found_when_no_candidate c1wPage "Titanic" "https://ex.fr/salle"
    (by decide) (by decide) (by decide)

theorem append_colon_ne_empty (a mm : String) : a ++ ":" ++ mm ≠ "" := by
  intro h
  have hl := congrArg String.length h
  rw [String.length_append, String.length_append] at hl
  simp at hl
  exact absurd hl.1.2 (by decide)

theorem append_colon00_ne_empty (a : String) : a ++ ":00" ≠ "" := by
  intro h
  have hl := congrArg String.length h
  rw [String.length_append] at hl
  simp at hl
  exact absurd hl.2 (by decide)

/-- Helper: a time-bearing element with non-empty visible text never yields
an empty time value. -/
theorem timeVal_ne_empty_of_text {el : TimeEl} (h : el.text ≠ "") : timeVal el ≠ "" := by
  unfold timeVal
  rw [if_pos h]
  cases hm : searchHM el.text.data with
  | some r =>
    cases r with
    | mk hh mm => exact append_colon_ne_empty (pad2 hh) mm
  | none =>
    cases hb : searchHBare el.text.data with
    | some hh => exact append_colon00_ne_empty (pad2 hh)
    | none => exact h

/-- Helper: membership in the deduplicated list implies membership in the
original list. -/
theorem mem_of_mem_dedupBy {seen : List String} {l : List Slot} {s : Slot}
    (h : s ∈ dedupBy seen l) : s ∈ l := by
  induction l generalizing seen with
  | nil => simp [dedupBy] at h
  | cons st rest ih =>
    unfold dedupBy at h
    by_cases hk : slotKey st ∈ seen
    · rw [if_pos hk] at h
      exact List.mem_cons_of_mem _ (ih h)
    · rw [if_neg hk] at h
      rcases List.mem_cons.mp h with h1 | h1
      · subst h1; exact List.mem_cons_self _ _
      · exact List.mem_cons_of_mem _ (ih h1)

/-- C2: the time fallback chain — a first `H(h|H|:)MM` match becomes
zero-padded `HH:MM`, else a bare-hour `H h` match becomes `HH:00`, else
non-empty visible text is kept verbatim; end to end, a matched film's spans
"20h30", "20h", "Séance spéciale" come out as "20:30", "20:00",
"Séance spéciale". -/
theorem C2_time_fallback_chain :
    (∀ el : TimeEl, el.text ≠ "" →
      (∀ hh mm, searchHM el.text.data = some (hh, mm) → timeVal el = pad2 hh ++ ":" ++ mm) ∧
      (searchHM el.text.data = none → ∀ hh, searchHBare el.text.data = some hh →
        timeVal el = pad2 hh ++ ":00") ∧
      (searchHM el.text.data = none → searchHBare el.text.data = none →
        timeVal el = el.text)) ∧
    (parse_cinema_showtimes c2Page "Mon Film" "https://ex.fr/salle").showtimes.map Slot.time
      = ["20:30", "20:00", "Séance spéciale"] := by
  constructor
  · intro el hne
    refine ⟨?_, ?_, ?_⟩
    · intro hh mm h
      unfold timeVal
      rw [if_pos hne, h]
    · intro h1 hh h2
      unfold timeVal
      rw [if_pos hne, h1, h2]
    · intro h1 h2
      unfold timeVal
      rw [if_pos hne, h1, h2]
  · decide

/-- Witness for C2's general part at the element with text "20h30". -/
theorem C2_time_fallback_chain_witness :
    timeVal { text := "20h30", dataTime := none, ancestorDate := none } =
      pad2 20 ++ ":" ++ "30" :=
  ((C2_time_fallback_chain.1
    { text := "20h30", dataTime := none, ancestorDate := none } (by decide)).1
    20 "30" (by decide))

/-- C3 counterexample: a time-bearing element with no visible text and no
`data-showtime-time` attribute (scrape.py line 300: `s.get(...) or
s.get_text(...)`) produces a slot whose time value is the empty string. -/
theorem C3_counterexample :
    (parse_cinema_showtimes c3Page "Mon Film" "https://ex.fr/salle").showtimes =
      [{ date := none, time := "", text := "" }] ∧
    ∃ s ∈ (parse_cinema_showtimes c3Page "Mon Film" "https://ex.fr/salle").showtimes,
      s.time = "" := by
  decide

/-- C3 (amended): every time-bearing element yields a (never-null) string
time value, and that value is non-empty whenever the element has non-empty
visible text or a non-empty `data-showtime-time` attribute; in particular
every slot emitted by `parse_cinema_showtimes` whose raw text is non-empty
has a non-empty time. -/
theorem C3_time_nonempty_unless_blank_element :
    (∀ el : TimeEl,
      (el.text ≠ "" ∨ (∃ t, el.dataTime = some t ∧ t ≠ "")) → timeVal el ≠ "") ∧
    (∀ page film url s, s ∈ (parse_cinema_showtimes page film url).showtimes →
      s.text ≠ "" → s.time ≠ "") := by
  constructor
  · intro el h
    rcases h with h | ⟨t, ht, htne⟩
    · exact timeVal_ne_empty_of_text h
    · by_cases hx : el.text = ""
      · unfold timeVal
        rw [if_neg (by simp [hx]), ht]
        simp [htne]
      · exact timeVal_ne_empty_of_text hx
  · intro page film url s hs hstext
    unfold parse_cinema_showtimes at hs
    cases hc : chooseCandidates page (normalize_text film) with
    | nil => rw [hc] at hs; simp [notFoundResult] at hs
    | cons a rest =>
      rw [hc] at hs
      simp only [dedupSlots] at hs
      have hs2 := mem_of_mem_dedupBy hs
      rcases List.mem_map.mp hs2 with ⟨el, _, hse⟩
      have htext : s.text = el.text := by rw [← hse]; rfl
      have htime : s.time = timeVal el := by rw [← hse]; rfl
      rw [htime]
      exact timeVal_ne_empty_of_text (by rw [← htext]; exact hstext)

/-- Witness for C3's amended statement at a concrete element and page. -/
theorem C3_time_nonempty_unless_blank_element_witness :
    timeVal { text := "20h30", dataTime := none, ancestorDate := none } ≠ "" :=
  C3_time_nonempty_unless_blank_element.1
    { text := "20h30", dataTime := none, ancestorDate := none } (Or.inl (by decide))

theorem dedupBy_not_mem_seen : ∀ (l : List Slot) (seen : List String) (s : Slot),
    s ∈ dedupBy seen l → slotKey s ∉ seen := by
  intro l
  induction l with
  | nil => intro seen s h; simp [dedupBy] at h
  | cons st rest ih =>
    intro seen s h
    unfold dedupBy at h
    by_cases hk : slotKey st ∈ seen
    · rw [if_pos hk] at h
      exact ih seen s h
    · rw [if_neg hk] at h
      rcases List.mem_cons.mp h with h1 | h1
      · subst h1; exact hk
      · intro hcontra
        exact ih _ s h1 (List.mem_cons_of_mem _ hcontra)

theorem dedupBy_sublist : ∀ (l : List Slot) (seen : List String),
    (dedupBy seen l).Sublist l := by
  intro l
  induction l with
  | nil => intro seen; simp [dedupBy]
  | cons st rest ih =>
    intro seen
    unfold dedupBy
    by_cases hk : slotKey st ∈ seen
    · rw [if_pos hk]
      exact List.Sublist.cons _ (ih seen)
    · rw [if_neg hk]
      exact List.Sublist.cons₂ _ (ih _)

theorem dedupBy_keys_nodup : ∀ (l : List Slot) (seen : List String),
    ((dedupBy seen l).map slotKey).Nodup := by
  intro l
  induction l with
  | nil => intro seen; simp [dedupBy]
  | cons st rest ih =>
    intro seen
    unfold dedupBy
    by_cases hk : slotKey st ∈ seen
    · rw [if_pos hk]
      exact ih seen
    · rw [if_neg hk]
      rw [List.map_cons]
      refine List.nodup_cons.mpr ⟨?_, ih _⟩
      intro hmem
      rcases List.mem_map.mp hmem with ⟨t, ht, hkey⟩
      exact dedupBy_not_mem_seen rest _ t ht (hkey ▸ List.mem_cons_self _ _)

theorem dedupBy_find_first : ∀ (l : List Slot) (seen : List String) (t : Slot),
    t ∈ dedupBy seen l → l.find? (fun u => slotKey u == slotKey t) = some t := by
  intro l
  induction l with
  | nil => intro seen t h; simp [dedupBy] at h
  | cons st rest ih =>
    intro seen t h
    unfold dedupBy at h
    by_cases hk : slotKey st ∈ seen
    · rw [if_pos hk] at h
      have hne : slotKey st ≠ slotKey t := by
        intro he
        exact dedupBy_not_mem_seen rest seen t h (he ▸ hk)
      rw [List.find?_cons_of_neg _ (by simp [hne])]
      exact ih seen t h
    · rw [if_neg hk] at h
      rcases List.mem_cons.mp h with h1 | h1
      · subst h1
        rw [List.find?_cons_of_pos _ (by simp)]
      · have hts := dedupBy_not_mem_seen rest _ t h1
        have hne : slotKey st ≠ slotKey t := by
          intro he
          exact hts (he ▸ List.mem_cons_self _ _)
        rw [List.find?_cons_of_neg _ (by simp [hne])]
        exact ih _ t h1

theorem dedupBy_covers : ∀ (l : List Slot) (seen : List String) (s : Slot),
    s ∈ l → slotKey s ∉ seen → ∃ t ∈ dedupBy seen l, slotKey t = slotKey s := by
  intro l
  induction l with
  | nil => intro seen s h; simp at h
  | cons st rest ih =>
    intro seen s h hseen
    unfold dedupBy
    by_cases hk : slotKey st ∈ seen
    · rw [if_pos hk]
      rcases List.mem_cons.mp h with h1 | h1
      · subst h1; exact absurd hk hseen
      · exact ih seen s h1 hseen
    · rw [if_neg hk]
      by_cases hks : slotKey st = slotKey s
      · exact ⟨st, List.mem_cons_self _ _, hks⟩
      · rcases List.mem_cons.mp h with h1 | h1
        · subst h1; exact absurd rfl hks
        · have hseen2 : slotKey s ∉ slotKey st :: seen := by
            intro hc
            rcases List.mem_cons.mp hc with hc1 | hc2
            · exact hks hc1.symm
            · exact hseen hc2
          rcases ih _ s h1 hseen2 with ⟨t, ht, hkt⟩
          exact ⟨t, List.mem_cons_of_mem _ ht, hkt⟩

theorem dedupBy_id : ∀ (l : List Slot) (seen : List String),
    (l.map slotKey).Nodup → (∀ s ∈ l, slotKey s ∉ seen) → dedupBy seen l = l := by
  intro l
  induction l with
  | nil => intro seen _ _; rfl
  | cons st rest ih =>
    intro seen hnd hfresh
    rw [List.map_cons] at hnd
    unfold dedupBy
    rw [if_neg (hfresh st (List.mem_cons_self _ _))]
    congr 1
    apply ih
    · exact (List.nodup_cons.mp hnd).2
    · intro s hs hc
      rcases List.mem_cons.mp hc with hc1 | hc2
      · exact (List.nodup_cons.mp hnd).1 (hc1 ▸ List.mem_map_of_mem slotKey hs)
      · exact hfresh s (List.mem_cons_of_mem _ hs) hc2

/-- C4 counterexample: two slots with different (date, time) pairs whose
string keys `f"{date}_{time}"` coincide ("a_b"+"_"+"c" = "a"+"_"+"b_c"); the
code drops the second even though its composite (date, time) key is new. -/
theorem C4_counterexample :
    dedupSlots [{ date := some "a_b", time := "c", text := "" },
                { date := some "a", time := "b_c", text := "" }] =
      [{ date := some "a_b", time := "c", text := "" }] ∧
    ({ date := some "a", time := "b_c", text := "" } : Slot) ∉
      dedupSlots [{ date := some "a_b", time := "c", text := "" },
                  { date := some "a", time := "b_c", text := "" }] ∧
    ({ date := some "a_b", time := "c", text := "" } : Slot).date ≠
      ({ date := some "a", time := "b_c", text := "" } : Slot).date := by
  decide

/-- C4 (amended): deduplication keys slots by the string
`str(date) + "_" + time` (which agrees with the pair (date, time) except
when underscores make distinct pairs collide, or a date equals the literal
"None"); under that key it keeps exactly the first-seen slot, preserves the
insertion order of kept slots, and is idempotent. -/
theorem C4_dedup_first_seen_order_idem (slots : List Slot) :
    dedupSlots (dedupSlots slots) = dedupSlots slots ∧
    (dedupSlots slots).Sublist slots ∧
    ((dedupSlots slots).map slotKey).Nodup ∧
    (∀ s ∈ slots, ∃ t ∈ dedupSlots slots, slotKey t = slotKey s) ∧
    (∀ t ∈ dedupSlots slots, slots.find? (fun u => slotKey u == slotKey t) = some t) := by
  refine ⟨?_, dedupBy_sublist slots [], dedupBy_keys_nodup slots [], ?_, ?_⟩
  · unfold dedupSlots
    exact dedupBy_id _ [] (dedupBy_keys_nodup slots []) (by intro s _; simp)
  · intro s hs
    exact dedupBy_covers slots [] s hs (by simp)
  · intro t ht
    exact dedupBy_find_first slots [] t ht

/-- Witness for C4 on a concrete two-slot list with a repeated key. -/
theorem C4_dedup_first_seen_order_idem_witness :
    ∃ t ∈ dedupSlots [{ date := none, time := "20:30", text := "20h30" },
                      { date := none, time := "20:30", text := "dup" }],
      slotKey t = slotKey { date := none, time := "20:30", text := "dup" } :=
  (C4_dedup_first_seen_order_idem
      [{ date := none, time := "20:30", text := "20h30" },
       { date := none, time := "20:30", text := "dup" }]).2.2.2.1
    { date := none, time := "20:30", text := "dup" } (by decide)

theorem crawlLoop_events {α : Type} (fetch : Nat → Option (List α)) :
    ∀ (ps : List Nat) (films : List α),
    (crawlLoop fetch ps films).2 =
      ps.flatMap (fun p => [CrawlEvent.sleep 6, CrawlEvent.request p]) := by
  intro ps
  induction ps with
  | nil => intro films; rfl
  | cons p ps ih =>
    intro films
    unfold crawlLoop
    cases fetch p with
    | none => simp [ih]
    | some cards => simp [ih]

theorem crawlLoop_films {α : Type} (fetch : Nat → Option (List α)) :
    ∀ (ps : List Nat) (films : List α),
    (crawlLoop fetch ps films).1 = films ++ (ps.filterMap fetch).flatten := by
  intro ps
  induction ps with
  | nil => intro films; simp [crawlLoop]
  | cons p ps ih =>
    intro films
    unfold crawlLoop
    cases hp : fetch p with
    | none => simp [hp, ih]
    | some cards => simp [hp, ih]

theorem blocks_request_preceded_by_sleep (ps : List Nat) : ∀ (i p : Nat),
    (ps.flatMap (fun q => [CrawlEvent.sleep 6, CrawlEvent.request q]))[i]? =
      some (CrawlEvent.request p) →
    0 < i ∧
      (ps.flatMap (fun q => [CrawlEvent.sleep 6, CrawlEvent.request q]))[i - 1]? =
        some (CrawlEvent.sleep 6) := by
  induction ps with
  | nil => intro i p h; simp at h
  | cons q qs ih =>
    intro i p h
    rw [List.flatMap_cons] at h ⊢
    simp only [List.cons_append, List.nil_append] at h ⊢
    match i with
    | 0 => simp at h
    | 1 => exact ⟨by omega, by simp⟩
    | n + 2 =>
      have h' := ih n p (by simpa using h)
      refine ⟨by omega, ?_⟩
      have hn : n + 2 - 1 = (n - 1) + 2 := by omega
      rw [hn]
      simpa using h'.2

theorem blocks_request_count (ps : List Nat) :
    (ps.flatMap (fun q => [CrawlEvent.sleep 6, CrawlEvent.request q])).countP isRequestEv
      = ps.length := by
  induction ps with
  | nil => rfl
  | cons q qs ih =>
    rw [List.flatMap_cons, List.countP_append, ih]
    simp [List.countP_cons, isRequestEv]
    omega

theorem blocks_request_mem {ps : List Nat} {p : Nat}
    (h : CrawlEvent.request p ∈
      ps.flatMap (fun q => [CrawlEvent.sleep 6, CrawlEvent.request q])) : p ∈ ps := by
  rw [List.mem_flatMap] at h
  rcases h with ⟨q, hq, hmem⟩
  simp at hmem
  exact hmem ▸ hq

/-- C5: with a detected `maxPage ≥ 1`, the crawler requests only pages
`2 .. min(maxPage, 30)` (so at most `min(maxPage, 30)` pages in total
counting page 1), every request event is immediately preceded by the 0.6s
delay event, and the collected films always extend the films gathered before
the crawl, whatever pages fail to fetch. -/
theorem C5_pagination_bounded_delayed_monotone {α : Type}
    (fetch : Nat → Option (List α)) (maxPage : Nat) (films0 : List α)
    (h1 : 1 ≤ maxPage) :
    (∀ p, CrawlEvent.request p ∈ (crawl fetch maxPage films0).2 →
      2 ≤ p ∧ p ≤ min maxPage 30) ∧
    ((crawl fetch maxPage films0).2.countP isRequestEv + 1 ≤ min maxPage 30) ∧
    (∀ i p, (crawl fetch maxPage films0).2[i]? = some (CrawlEvent.request p) →
      0 < i ∧ (crawl fetch maxPage films0).2[i - 1]? = some (CrawlEvent.sleep 6)) ∧
    (∃ rest, (crawl fetch maxPage films0).1 = films0 ++ rest) := by
  by_cases hm : maxPage > 1
  · have hev : (crawl fetch maxPage films0).2 =
        (List.range' 2 (min maxPage 30 - 1)).flatMap
          (fun p => [CrawlEvent.sleep 6, CrawlEvent.request p]) := by
      unfold crawl
      rw [if_pos hm]
      exact crawlLoop_events fetch _ films0
    have hmin : 2 ≤ min maxPage 30 := by omega
    refine ⟨?_, ?_, ?_, ?_⟩
    · intro p hp
      rw [hev] at hp
      have hpin := blocks_request_mem hp
      rw [List.mem_range'_1] at hpin
      omega
    · rw [hev, blocks_request_count, List.length_range']
      omega
    · intro i p hp
      rw [hev] at hp ⊢
      exact blocks_request_preceded_by_sleep _ i p hp
    · refine ⟨(((List.range' 2 (min maxPage 30 - 1)).filterMap fetch)).flatten, ?_⟩
      unfold crawl
      rw [if_pos hm]
      exact crawlLoop_films fetch _ films0
  · have hm1 : maxPage = 1 := by omega
    subst hm1
    have hc : crawl fetch 1 films0 = (films0, []) := by
      unfold crawl
      rw [if_neg (by omega)]
    rw [hc]
    refine ⟨?_, ?_, ?_, ⟨[], by simp⟩⟩
    · intro p hp
      simp at hp
    · simp [List.countP, List.countP.go]
    · intro i p hp
      simp at hp

/-- Witness for C5 with three pages detected and every extra fetch failing. -/
theorem C5_pagination_bounded_delayed_monotone_witness :
    ∃ rest, (crawl (fun _ => (none : Option (List Nat))) 3 ([] : List Nat)).1 =
      [] ++ rest :=
  (C5_pagination_bounded_delayed_monotone (fun _ => none) 3 [] (by decide)).2.2.2

/-- C7: a request missing `url` or `film` gets status 400 with exactly
`{"error": "url and film parameters required"}` and the pipeline never
starts. -/
theorem C7_missing_params_rejected (url film : Option String)
    (runPipeline : Unit → ApiResponse) (h : url = none ∨ film = none) :
    handleApiScrape url film runPipeline =
      ({ status := 400, body := requiredParamsBody }, false) := by
  rcases h with h | h <;> subst h <;> simp [handleApiScrape, pyTruthy]

/-- Witness for C7 at a request with a film but no url. -/
theorem C7_missing_params_rejected_witness :
    handleApiScrape none (some "Titanic") (fun _ => { status := 200, body := "" }) =
      ({ status := 400, body := requiredParamsBody }, false) :=
  C7_missing_params_rejected none (some "Titanic") _ (Or.inl rfl)

/-- C8 counterexample: with no override and no DOM guess, the code falls back
to `path.split('=')[-1]`, which for the path "/cinema/le-prevert" is the
whole path — not the last path segment "le-prevert" the claim announces. -/
theorem C8_counterexample :
    resolveSalleName none c8Page "/cinema/le-prevert" = "/cinema/le-prevert" ∧
    lastPathSegmentSpec "/cinema/le-prevert" = "le-prevert" ∧
    resolveSalleName none c8Page "/cinema/le-prevert" ≠
      lastPathSegmentSpec "/cinema/le-prevert" := by
  decide

/-- C8 (amended): resolution order is explicit non-empty override → DOM
guess (first `<h1>` with non-empty text of length > 3, else a non-empty
"titlebar-title" element, else the "cin"/"salle" candidate) → the part of
the URL path after its last `=` (the whole path when it contains none). -/
theorem C8_salle_resolution_order (override : Option String) (p : SallePage) (path : String) :
    (∀ s, override = some s → s ≠ "" → resolveSalleName override p path = s) ∧
    (pyTruthy override = false →
      (∀ t, extract_salle_name p = some t → t ≠ "" →
        resolveSalleName override p path = t) ∧
      ((extract_salle_name p = none ∨ extract_salle_name p = some "") →
        resolveSalleName override p path = lastEqSegment path)) ∧
    (∀ t, p.h1Text = some t → t ≠ "" → 3 < t.length → extract_salle_name p = some t) ∧
    (∀ t, p.h1Text = some t → ¬(t ≠ "" ∧ 3 < t.length) →
      extract_salle_name p = salleTitlebarOrCin p) ∧
    (p.h1Text = none → extract_salle_name p = salleTitlebarOrCin p) ∧
    (∀ u, p.titlebarText = some u → u ≠ "" → salleTitlebarOrCin p = some u) ∧
    ((p.titlebarText = none ∨ p.titlebarText = some "") →
      salleTitlebarOrCin p = p.cinSalleText) := by
  refine ⟨?_, ?_, ?_, ?_, ?_, ?_, ?_⟩
  · intro s hs hne
    subst hs
    simp [resolveSalleName, hne]
  · intro hov
    have hres : resolveSalleName override p path = salleOrPath p path := by
      cases override with
      | none => rfl
      | some s =>
        have hs : s = "" := by
          by_contra hne
          simp [pyTruthy, hne] at hov
        subst hs
        simp [resolveSalleName]
    constructor
    · intro t ht htne
      rw [hres]
      simp [salleOrPath, ht, htne]
    · intro hex
      rw [hres]
      rcases hex with hex | hex <;> simp [salleOrPath, hex]
  · intro t ht htne hlen
    simp [extract_salle_name, ht, htne, hlen]
  · intro t ht hfail
    simp [extract_salle_name, ht, hfail]
  · intro h
    simp [extract_salle_name, h]
  · intro u hu hune
    simp [salleTitlebarOrCin, hu, hune]
  · intro h
    rcases h with h | h <;> simp [salleTitlebarOrCin, h]

/-- Witness for C8: the explicit override wins on a concrete page. -/
theorem C8_salle_resolution_order_witness :
    resolveSalleName (some "Le Prevert") c8Page "/cinema/le-prevert" = "Le Prevert" :=
  (C8_salle_resolution_order (some "Le Prevert") c8Page "/cinema/le-prevert").1
    "Le Prevert" rfl (by decide)

/-- C9 counterexample: a run whose fetch succeeds but whose page yields no
film cards writes the HTML snapshot and no page-level JSON, contradicting
"the page-level JSON artifact is produced alongside the raw HTML snapshot". -/
theorem C9_counterexample :
    runArtifacts true false false = [Artifact.html] ∧
    Artifact.pageJson ∉ runArtifacts true false false ∧
    Artifact.html ∈ runArtifacts true false false := by
  decide

/-- C9 (amended): on a successful fetch the HTML snapshot is always written
and no request-error artifact is; the page-level JSON (with the `_all` list)
is written exactly when at least one film card was collected; the per-film
JSON is written exactly when a film was requested. -/
theorem C9_page_json_requires_films : ∀ fg fn : Bool,
    Artifact.html ∈ runArtifacts true fg fn ∧
    Artifact.requestError ∉ runArtifacts true fg fn ∧
    Artifact.pageJson ∈ runArtifacts true fg true ∧
    Artifact.allJson ∈ runArtifacts true fg true ∧
    Artifact.pageJson ∉ runArtifacts true fg false ∧
    Artifact.filmJson ∈ runArtifacts true true fn ∧
    Artifact.filmJson ∉ runArtifacts true false fn := by
  decide
